import Mathlib

/-!
# Message-embedding and summary store of `pkg/store/postgres`

A shallow embedding of `getMessageEmbeddings` and `putMessageEmbeddings`
(`message_embeddings.go`) together with the summary operations exercised by
`summary_test.go`.  The relational engine behind `*bun.DB` is an explicit state
(`DB`: the tables plus the log of statements issued) and an `Engine` that may
fail any statement with a cause.  A Go `(value, error)` return is a pair of
options, `none` standing for `nil`.
-/

namespace Zep

/-! ## Values -/

/-- A `uuid.UUID`, carried without interpretation. -/
abbrev Uuid := Nat

/-- One `float32` component of a vector, carried by its bit pattern: the store
copies components and never computes with them. -/
abbrev Float32 := Nat

/-- A `time.Time`; `0` is Go's zero time (`IsZero`). -/
abbrev Time := Nat

/-- Modelled from the spec: the open key/value mapping `map[string]interface{}`
of a summary, whose values the store only copies. -/
abbrev MetadataMap := List (String × String)

/-- A Go slice: `none` is the `nil` slice, `some []` an empty non-nil slice. -/
abbrev Slice (α : Type) := Option (List α)

/-- Go's `len` of a slice (`len(nil) = 0`). -/
def Slice.len {α : Type} : Slice α → Nat
  | none => 0
  | some xs => xs.length

/-- The elements a `for ... range` over the slice visits. -/
def Slice.elems {α : Type} : Slice α → List α
  | none => []
  | some xs => xs

/-! ## Errors -/

/-- A Go `error` value.  `errorsNew` is what `errors.New` builds, `driver` is an
error raised inside the database driver or engine, and `storageError` is a
`*store.StorageError` with its message and wrapped cause (`none` for `nil`). -/
inductive GoError where
  | errorsNew (msg : String)
  | driver (msg : String)
  | storageError (msg : String) (cause : Option GoError)
  deriving Repr

/-- The dynamic type of an error, which `errors.As` tests. -/
inductive ErrorKind where
  | errorString
  | driver
  | StorageError
  deriving DecidableEq, Repr

/-- The kind (dynamic type) of an error value. -/
def GoError.kind : GoError → ErrorKind
  | .errorsNew _ => .errorString
  | .driver _ => .driver
  | .storageError _ _ => .StorageError

/-- The message text of an error value. -/
def GoError.message : GoError → String
  | .errorsNew m => m
  | .driver m => m
  | .storageError m _ => m

/-- The wrapped cause of an error value (`Unwrap`). -/
def GoError.cause : GoError → Option GoError
  | .storageError _ c => c
  | _ => none

/-- Modelled from the spec: the constructor `store.NewStorageError(message,
cause)`, declared in `pkg/store`; a `StorageError`
wraps a descriptive message and keeps the original cause for diagnostics. -/
def NewStorageError (message : String) (originalError : Option GoError) : GoError :=
  .storageError message originalError

/-! ## Records -/

/-- Modelled from the spec: the type `models.TextData`, declared in `pkg/models`,
with the fields `message_embeddings.go` reads and
writes: a vector, the identifier of its source text and the text itself. -/
structure TextData where
  TextUUID : Uuid
  Text : String
  Embedding : List Float32
  deriving DecidableEq, Repr

/-- The type `pgvector.Vector`: a wrapper around the component slice. -/
structure Vector where
  vec : List Float32
  deriving DecidableEq, Repr

/-- The function `pgvector.NewVector`. -/
def NewVector (vec : List Float32) : Vector := ⟨vec⟩

/-- The method `Vector.Slice`. -/
def Vector.Slice (v : Vector) : List Float32 := v.vec

/-- Modelled from the spec: the row type of table `message`, declared
elsewhere in the package, with identity, session reference, role, content and
soft-delete timestamp.  `DeletedAt = none` is SQL `NULL`: the message is
active. -/
structure MessageStoreSchema where
  UUID : Uuid
  SessionID : String
  Role : String
  Content : String
  DeletedAt : Option Time
  deriving DecidableEq, Repr

/-- Modelled from the spec: the row type of table `message_embedding`, declared
elsewhere in the package, with the fields `putMessageEmbeddings` writes:
session reference, vector, message reference and the "is embedded" flag. -/
structure MessageVectorStoreSchema where
  SessionID : String
  Embedding : Vector
  MessageUUID : Uuid
  IsEmbedded : Bool
  deriving DecidableEq, Repr

/-- The anonymous result struct of `getMessageEmbeddings`, which embeds both
schema structs. -/
structure JoinedRow where
  toMessage : MessageStoreSchema
  toVector : MessageVectorStoreSchema
  deriving DecidableEq, Repr

/-- Modelled from the spec: the row type of table `summary` (declared
elsewhere in the package): identity, session reference, content, metadata, summary
point, creation and soft-delete timestamps. -/
structure SummaryStoreSchema where
  UUID : Uuid
  CreatedAt : Time
  DeletedAt : Option Time
  SessionID : String
  Content : String
  Metadata : MetadataMap
  SummaryPointUUID : Uuid
  deriving DecidableEq, Repr

/-- Modelled from the spec: the type `models.Summary` handed to and returned by
the summary operations; `summary_test.go` reads its fields `UUID`, `CreatedAt`,
`Content`, `Metadata` and `SummaryPointUUID`. -/
structure Summary where
  UUID : Uuid
  CreatedAt : Time
  Content : String
  Metadata : MetadataMap
  SummaryPointUUID : Uuid
  deriving DecidableEq, Repr

/-- Go zero value of `MessageStoreSchema`. -/
def MessageStoreSchema.zero : MessageStoreSchema := ⟨0, "", "", "", none⟩

/-- Go zero value of `MessageVectorStoreSchema`. -/
def MessageVectorStoreSchema.zero : MessageVectorStoreSchema := ⟨"", ⟨[]⟩, 0, false⟩

/-- Go zero value of `models.TextData`. -/
def TextData.zero : TextData := ⟨0, "", []⟩

/-! ## The engine -/

/-- A statement sent to the engine. -/
inductive Stmt where
  | selectMessageEmbeddings (sessionID : String)
  | insertMessageEmbeddings (rows : List MessageVectorStoreSchema)
  | insertSummary (sessionID : String) (summary : Summary)
  | selectSummary (sessionID : String)
  | selectSummaryList (sessionID : String) (limit offset : Nat)
  deriving DecidableEq, Repr

/-- The database: its tables in insertion order and the log of the statements
issued so far, oldest first. -/
structure DB where
  message : List MessageStoreSchema
  message_embedding : List MessageVectorStoreSchema
  summary : List SummaryStoreSchema
  log : List Stmt
  deriving DecidableEq, Repr

/-- The behaviour of the engine that the store does not decide.  For a state and
a statement, `fault` is the error the call fails with (connectivity, constraint
violation, ...) or `none` when the statement is carried out; for an insert that
lets the server fill in a row's UUID and creation timestamp, `newUUID` is the
UUID it generates and `elapsed` the time that passes on the server clock,
beyond one tick, before the row is stamped. -/
structure Engine where
  fault : DB → Stmt → Option GoError
  newUUID : DB → Stmt → Uuid
  elapsed : DB → Stmt → Nat

/-- The database after one more statement was issued. -/
def DB.issue (db : DB) (s : Stmt) : DB := { db with log := db.log ++ [s] }

/-- The rows of
`SELECT message.content, message_embedding.* FROM message_embedding
 JOIN message ON message_embedding.message_uuid = message.uuid
 WHERE message_embedding.session_id = ? AND message.deleted_at IS NULL`,
scanned into the result struct: `Content` comes from the message, the other
columns from the embedding row. -/
def joinMessageEmbeddings (db : DB) (sessionID : String) : List JoinedRow :=
  db.message_embedding.flatMap fun v =>
    (db.message.filter fun m =>
      decide (v.MessageUUID = m.UUID) && decide (v.SessionID = sessionID) &&
        decide (m.DeletedAt = none)).map fun m =>
      ⟨{ MessageStoreSchema.zero with Content := m.Content }, v⟩

/-- The call `db.NewSelect()...Exec(ctx, &results)` of `getMessageEmbeddings`:
one statement is issued; it fails with the engine's error or yields the joined
rows. -/
def execSelectMessageEmbeddings (eng : Engine) (db : DB) (sessionID : String) :
    Except GoError (List JoinedRow) × DB :=
  let stmt := Stmt.selectMessageEmbeddings sessionID
  match eng.fault db stmt with
  | some err => (.error err, db.issue stmt)
  | none => (.ok (joinMessageEmbeddings db sessionID), db.issue stmt)

/-- The call `db.NewInsert().Model(&embeddingVectors).Exec(ctx)`: one multi-row
insert is issued; it fails as a whole with the engine's error, or all rows are
appended to `message_embedding`. -/
def execInsertMessageEmbeddings (eng : Engine) (db : DB)
    (rows : List MessageVectorStoreSchema) : Option GoError × DB :=
  let stmt := Stmt.insertMessageEmbeddings rows
  match eng.fault db stmt with
  | some err => (some err, db.issue stmt)
  | none =>
    (none, { db.issue stmt with message_embedding := db.message_embedding ++ rows })

/-! ## `message_embeddings.go` -/

/-- The loop `for i, x := range xs { out[i] = f x }` started at index `i`. -/
def rangeAssign {α β : Type} (f : α → β) : List α → Nat → List β → List β
  | [], _, out => out
  | x :: xs, i, out => rangeAssign f xs (i + 1) (out.set i (f x))

/-- The function `getMessageEmbeddings`. -/
def getMessageEmbeddings (eng : Engine) (db : DB) (sessionID : String) :
    (Slice TextData × Option GoError) × DB :=
  if sessionID = "" then
    ((none, some (.errorsNew "sessionID cannot be empty")), db)
  else
    match execSelectMessageEmbeddings eng db sessionID with
    | (.error err, db') =>
      ((none, some (NewStorageError "failed to get message vectors" (some err))), db')
    | (.ok results, db') =>
      let embeddings := List.replicate results.length TextData.zero
      let embeddings := rangeAssign
        (fun vectorStoreRecord : JoinedRow =>
          { Embedding := vectorStoreRecord.toVector.Embedding.Slice
            TextUUID := vectorStoreRecord.toVector.MessageUUID
            Text := vectorStoreRecord.toMessage.Content : TextData })
        results 0 embeddings
      ((some embeddings, none), db')

/-- The function `putMessageEmbeddings`. -/
def putMessageEmbeddings (eng : Engine) (db : DB) (sessionID : String)
    (embeddings : Slice TextData) : Option GoError × DB :=
  if embeddings = none then
    (some (NewStorageError "nil embeddings received" none), db)
  else if embeddings.len = 0 then
    (some (NewStorageError "no embeddings received" none), db)
  else
    let embeddingVectors := List.replicate embeddings.len MessageVectorStoreSchema.zero
    let embeddingVectors := rangeAssign
      (fun e : TextData =>
        { SessionID := sessionID
          Embedding := NewVector e.Embedding
          MessageUUID := e.TextUUID
          IsEmbedded := true : MessageVectorStoreSchema })
      embeddings.elems 0 embeddingVectors
    match execInsertMessageEmbeddings eng db embeddingVectors with
    | (some err, db') =>
      (some (NewStorageError "failed to insert message vectors" (some err)), db')
    | (none, db') => (none, db')

/-- The records `getMessageEmbeddings` builds from the joined rows of a
session. -/
def storedRecords (db : DB) (sessionID : String) : List TextData :=
  (joinMessageEmbeddings db sessionID).map fun r =>
    ⟨r.toVector.MessageUUID, r.toMessage.Content, r.toVector.Embedding.Slice⟩

/-- The records the specification of Retrieve describes: one per message of the
session that is not soft-deleted and has an embedding row, carrying the
message's UUID, its content and the stored vector. -/
def embeddedMessages (db : DB) (sessionID : String) : List TextData :=
  (db.message.filter fun m =>
      decide (m.SessionID = sessionID) && decide (m.DeletedAt = none)).filterMap fun m =>
    (db.message_embedding.find? fun v => decide (v.MessageUUID = m.UUID)).map fun v =>
      ⟨m.UUID, m.Content, v.Embedding.Slice⟩

/-! ## The summary operations

`summary_test.go` exercises `putSummary`, `getSummary` and `getSummaryList`,
whose bodies are in another file of the package. -/

/-- The `models.Summary` view of a stored row. -/
def SummaryStoreSchema.toSummary (r : SummaryStoreSchema) : Summary :=
  { UUID := r.UUID, CreatedAt := r.CreatedAt, Content := r.Content,
    Metadata := r.Metadata, SummaryPointUUID := r.SummaryPointUUID }

/-- The non-deleted summary rows of a session, in insertion order. -/
def activeSummaries (db : DB) (sessionID : String) : List SummaryStoreSchema :=
  db.summary.filter fun r => decide (r.SessionID = sessionID) && decide (r.DeletedAt = none)

/-- Modelled from the spec: the latest creation timestamp the server has
assigned to a summary so far; `0`, Go's zero time, while the table is empty. -/
def DB.latestCreatedAt (db : DB) : Time :=
  db.summary.foldr (fun r t => max r.CreatedAt t) 0

/-- Modelled from the spec: the reading of the server clock that stamps a row
inserted now.  A summary put after another one is "created strictly after" it:
the reading lies at least one tick after every creation timestamp assigned
before, so it is never Go's zero time. -/
def serverNow (eng : Engine) (db : DB) (stmt : Stmt) : Time :=
  db.latestCreatedAt + 1 + eng.elapsed db stmt

/-- Modelled from the spec: the row `putSummary` persists: the caller's content,
metadata and summary point under the session, with the server-assigned UUID and
creation timestamp, not soft-deleted. -/
def summaryRow (eng : Engine) (db : DB) (sessionID : String) (summary : Summary) :
    SummaryStoreSchema :=
  { UUID := eng.newUUID db (.insertSummary sessionID summary)
    CreatedAt := serverNow eng db (.insertSummary sessionID summary)
    DeletedAt := none
    SessionID := sessionID
    Content := summary.Content
    Metadata := summary.Metadata
    SummaryPointUUID := summary.SummaryPointUUID }

/-- Modelled from the spec: `putSummary` (Put), whose body is in another file
of the package.  An empty session identifier is rejected before any I/O;
otherwise one new row is inserted unconditionally, the server assigning its UUID
and creation timestamp, and the persisted summary is returned with the caller's
content and metadata echoed back.  An engine failure is wrapped into a
`StorageError`. -/
def putSummary (eng : Engine) (db : DB) (sessionID : String) (summary : Summary) :
    (Option Summary × Option GoError) × DB :=
  if sessionID = "" then
    ((none, some (.errorsNew "sessionID cannot be empty")), db)
  else
    match eng.fault db (.insertSummary sessionID summary) with
    | some err =>
      ((none, some (NewStorageError "failed to put summary" (some err))),
        db.issue (.insertSummary sessionID summary))
    | none =>
      ((some (summaryRow eng db sessionID summary).toSummary, none),
        { db.issue (.insertSummary sessionID summary) with
          summary := db.summary ++ [summaryRow eng db sessionID summary] })

/-- One step of the selection of the current summary: the row with the greater
creation timestamp is kept, the later inserted one on a tie. -/
def laterOf (best : Option SummaryStoreSchema) (r : SummaryStoreSchema) :
    Option SummaryStoreSchema :=
  match best with
  | none => some r
  | some b => if b.CreatedAt ≤ r.CreatedAt then some r else some b

/-- Modelled from the spec: the current summary of a session, "the non-deleted
summary with the latest creation timestamp (ties broken by insertion order)". -/
def currentSummary (db : DB) (sessionID : String) : Option SummaryStoreSchema :=
  (activeSummaries db sessionID).foldl laterOf none

/-- Modelled from the spec: `getSummary` (GetCurrent), whose body is in another
file of the package.  It selects the non-deleted summary of the session with the
greatest creation timestamp; absence is a `nil` result with no error; an engine
failure is wrapped into a `StorageError`. -/
def getSummary (eng : Engine) (db : DB) (sessionID : String) :
    (Option Summary × Option GoError) × DB :=
  if sessionID = "" then
    ((none, some (.errorsNew "sessionID cannot be empty")), db)
  else
    match eng.fault db (.selectSummary sessionID) with
    | some err =>
      ((none, some (NewStorageError "failed to get summary" (some err))),
        db.issue (.selectSummary sessionID))
    | none =>
      (((currentSummary db sessionID).map SummaryStoreSchema.toSummary, none),
        db.issue (.selectSummary sessionID))

/-- Modelled from the spec: the page type returned by `getSummaryList`: the
records of the page (`Summaries`, read by `summary_test.go`) and the total
non-deleted count of the session. -/
structure SummaryListResponse where
  Summaries : List Summary
  TotalCount : Nat
  deriving DecidableEq, Repr

/-- Modelled from the spec: the "stable, deterministic order (e.g., creation
time descending)" of the non-deleted summaries of a session. -/
def summaryOrdering (db : DB) (sessionID : String) : List SummaryStoreSchema :=
  (activeSummaries db sessionID).insertionSort fun a b => b.CreatedAt ≤ a.CreatedAt

/-- Modelled from the spec: the rows of page `pageNumber` (1-indexed) of size
`pageSize`: "Offset = (pageNumber − 1) × pageSize". -/
def summaryPage (db : DB) (sessionID : String) (pageNumber pageSize : Nat) :
    List SummaryStoreSchema :=
  ((summaryOrdering db sessionID).drop ((pageNumber - 1) * pageSize)).take pageSize

/-- Modelled from the spec: `getSummaryList` (List), whose body is in another
file of the package.  It returns the requested page of the session's non-deleted
summaries together with their total count; a nonexistent session yields an
empty page; an engine failure is wrapped into a `StorageError`. -/
def getSummaryList (eng : Engine) (db : DB) (sessionID : String)
    (pageNumber pageSize : Nat) : (Option SummaryListResponse × Option GoError) × DB :=
  if sessionID = "" then
    ((none, some (.errorsNew "sessionID cannot be empty")), db)
  else
    let stmt := Stmt.selectSummaryList sessionID pageSize ((pageNumber - 1) * pageSize)
    match eng.fault db stmt with
    | some err =>
      ((none, some (NewStorageError "failed to get summaries" (some err))), db.issue stmt)
    | none =>
      ((some { Summaries := (summaryPage db sessionID pageNumber pageSize).map
                 SummaryStoreSchema.toSummary
               TotalCount := (activeSummaries db sessionID).length }, none),
        db.issue stmt)

/-- A sequence of `putSummary` calls on one session, each of which must succeed;
the result is the database after the last call and the summaries the calls
returned, in call order. -/
def putSummaries (eng : Engine) (sessionID : String) :
    DB → List Summary → Option (DB × List Summary)
  | db, [] => some (db, [])
  | db, c :: cs =>
    match putSummary eng db sessionID c with
    | ((some r, none), db') =>
      match putSummaries eng sessionID db' cs with
      | some (db'', rs) => some (db'', r :: rs)
      | none => none
    | _ => none

/-- The records of the page `getSummaryList` returns, none when it fails. -/
def listedSummaries (eng : Engine) (db : DB) (sessionID : String)
    (pageNumber pageSize : Nat) : List Summary :=
  match (getSummaryList eng db sessionID pageNumber pageSize).1.1 with
  | some page => page.Summaries
  | none => []

/-! ## Sample engines and states -/

/-- An engine that carries out every statement. -/
def Engine.healthy : Engine :=
  { fault := fun _ _ => none
    newUUID := fun db _ => 10 + db.summary.length
    elapsed := fun _ _ => 0 }

/-- An engine that fails every statement with the given cause. -/
def Engine.failing (cause : GoError) : Engine :=
  { Engine.healthy with fault := fun _ _ => some cause }

/-- The empty database. -/
def DB.empty : DB := ⟨[], [], [], []⟩

/-- A database with messages of two sessions, one of them soft-deleted, and
embedding rows for three of the four messages. -/
def DB.sample : DB :=
  { message := [⟨1, "s", "user", "Hello", none⟩, ⟨2, "s", "bot", "Hi there!", none⟩,
      ⟨3, "s", "user", "gone", some 5⟩, ⟨4, "t", "user", "other", none⟩]
    message_embedding := [⟨"s", ⟨[9, 9]⟩, 2, true⟩, ⟨"s", ⟨[5]⟩, 3, true⟩,
      ⟨"t", ⟨[4]⟩, 4, true⟩]
    summary := []
    log := [] }

/-- A batch with one entry, for message 1 of `DB.sample`. -/
def sampleBatch : List TextData := [⟨1, "ignored", [1, 2]⟩]

/-- The two summaries `TestGetSummary` puts, in call order. -/
def sampleCalls : List Summary :=
  [⟨0, 0, "Test content", [("key", "value")], 1⟩,
    ⟨0, 0, "Test content 2", [("key", "value")], 2⟩]

/-- The database after the two calls of `sampleCalls` on session "s" of the
empty database. -/
def DB.twoSummaries : DB :=
  { message := []
    message_embedding := []
    summary := [⟨10, 1, none, "s", "Test content", [("key", "value")], 1⟩,
      ⟨11, 2, none, "s", "Test content 2", [("key", "value")], 2⟩]
    log := [Stmt.insertSummary "s" ⟨0, 0, "Test content", [("key", "value")], 1⟩,
      Stmt.insertSummary "s" ⟨0, 0, "Test content 2", [("key", "value")], 2⟩] }

/-- The nine summaries of `TestGetSummaryList` on session "s". -/
def DB.nineSummaries : DB :=
  { message := []
    message_embedding := []
    summary := (List.range 9).map fun i =>
      ⟨100 + i, i + 1, none, "s", "Test content", [("key", "value")], i⟩
    log := [] }

/-! ## The assignment loop -/

theorem rangeAssign_append {α β : Type} (f : α → β) (xs : List α) :
    ∀ (done rest : List β), rest.length = xs.length →
      rangeAssign f xs done.length (done ++ rest) = done ++ xs.map f := by
  induction xs with
  | nil =>
    intro done rest h
    have hr : rest = [] := List.length_eq_zero.mp h
    simp [rangeAssign, hr]
  | cons x xs ih =>
    intro done rest h
    cases rest with
    | nil => simp at h
    | cons r rest =>
      have hlen : rest.length = xs.length := by simpa using h
      have hset : (done ++ r :: rest).set done.length (f x) = (done ++ [f x]) ++ rest := by
        simp [List.set_append]
      have hstep := ih (done ++ [f x]) rest hlen
      simp only [rangeAssign, hset]
      simpa using hstep

theorem rangeAssign_replicate {α β : Type} (f : α → β) (xs : List α) (z : β) :
    rangeAssign f xs 0 (List.replicate xs.length z) = xs.map f := by
  have h := rangeAssign_append f xs [] (List.replicate xs.length z) (by simp)
  simpa using h

/-! ## Guards of `message_embeddings.go` -/

/-- The rows `putMessageEmbeddings` builds from a batch: one per entry, in batch
order. -/
theorem putMessageEmbeddings_rows_eq (sessionID : String) (batch : List TextData) :
    rangeAssign
      (fun e : TextData =>
        { SessionID := sessionID
          Embedding := NewVector e.Embedding
          MessageUUID := e.TextUUID
          IsEmbedded := true : MessageVectorStoreSchema })
      batch 0 (List.replicate batch.length MessageVectorStoreSchema.zero)
      = batch.map fun e => ⟨sessionID, NewVector e.Embedding, e.TextUUID, true⟩ :=
  rangeAssign_replicate _ batch _

/-- What `putMessageEmbeddings` does on a non-empty batch: one insert of the
mapped rows, whose outcome decides the result. -/
theorem putMessageEmbeddings_cons (eng : Engine) (db : DB) (sessionID : String)
    (batch : List TextData) (hne : batch ≠ []) :
    putMessageEmbeddings eng db sessionID (some batch) =
      match execInsertMessageEmbeddings eng db
          (batch.map fun e => ⟨sessionID, NewVector e.Embedding, e.TextUUID, true⟩) with
      | (some err, db') =>
        (some (NewStorageError "failed to insert message vectors" (some err)), db')
      | (none, db') => (none, db') := by
  have hlen : ¬ batch.length = 0 := fun h => hne (List.length_eq_zero.mp h)
  simp only [putMessageEmbeddings, Slice.len, Slice.elems, hlen, if_false,
    putMessageEmbeddings_rows_eq]
  simp

/-- C1: for every engine and database state, `getMessageEmbeddings` with an empty
session identifier returns a nil result and the precondition error
`errors.New("sessionID cannot be empty")`, whose kind is not `StorageError`, and
leaves the database, its statement log included, untouched: no query is
issued. -/
theorem getMessageEmbeddings_empty_sessionID (eng : Engine) (db : DB) :
    getMessageEmbeddings eng db "" =
        ((none, some (GoError.errorsNew "sessionID cannot be empty")), db) ∧
      (GoError.errorsNew "sessionID cannot be empty").kind ≠ ErrorKind.StorageError ∧
      (getMessageEmbeddings eng db "").2.log = db.log := by
  refine ⟨?_, ?_, ?_⟩
  · simp [getMessageEmbeddings]
  · simp [GoError.kind]
  · simp [getMessageEmbeddings]

/-- C2 (the code at the failing input): with an empty session identifier and a
one-entry batch, `putMessageEmbeddings` on a healthy engine reports no error,
issues the insert and stores a row whose session reference is empty. -/
theorem putMessageEmbeddings_empty_sessionID_inserts :
    putMessageEmbeddings Engine.healthy DB.empty "" (some [⟨7, "hello", [1, 2]⟩]) =
      (none,
        { message := []
          message_embedding := [⟨"", ⟨[1, 2]⟩, 7, true⟩]
          summary := []
          log := [Stmt.insertMessageEmbeddings [⟨"", ⟨[1, 2]⟩, 7, true⟩]] }) := by
  rfl

/-- C3 (as stated, refuted): on a nil batch and on an empty non-nil batch
`putMessageEmbeddings` returns errors of one and the same kind. -/
theorem putMessageEmbeddings_nil_empty_same_kind :
    ∃ e₁ e₂ : GoError,
      (putMessageEmbeddings Engine.healthy DB.empty "s" none).1 = some e₁ ∧
      (putMessageEmbeddings Engine.healthy DB.empty "s" (some [])).1 = some e₂ ∧
      e₁.kind = e₂.kind :=
  ⟨_, _, rfl, rfl, rfl⟩

/-- C3 (amended): `putMessageEmbeddings` fails on a nil batch and on an empty
non-nil batch, both times with a `StorageError` without cause; the two errors
differ in their message text only ("nil embeddings received" against "no
embeddings received"). -/
theorem putMessageEmbeddings_nil_empty_errors (eng : Engine) (db : DB) (sessionID : String) :
    (putMessageEmbeddings eng db sessionID none).1 =
        some (GoError.storageError "nil embeddings received" none) ∧
      (putMessageEmbeddings eng db sessionID (some [])).1 =
        some (GoError.storageError "no embeddings received" none) ∧
      (GoError.storageError "nil embeddings received" none).kind = ErrorKind.StorageError ∧
      (GoError.storageError "no embeddings received" none).kind = ErrorKind.StorageError ∧
      (GoError.storageError "nil embeddings received" none).cause =
        (GoError.storageError "no embeddings received" none).cause ∧
      (GoError.storageError "nil embeddings received" none).message ≠
        (GoError.storageError "no embeddings received" none).message := by
  refine ⟨?_, ?_, rfl, rfl, rfl, ?_⟩
  · simp [putMessageEmbeddings, NewStorageError]
  · simp [putMessageEmbeddings, NewStorageError, Slice.len]
  · simp [GoError.message]

/-- C4: for every session identifier, engine and database state,
`putMessageEmbeddings` with a nil batch and with an empty batch returns an error
and the database it leaves is the one it was given: the stored embedding rows
are unchanged and no statement was issued. -/
theorem putMessageEmbeddings_nil_empty_no_insert (eng : Engine) (db : DB)
    (sessionID : String) :
    (∃ err, putMessageEmbeddings eng db sessionID none = (some err, db)) ∧
      (∃ err, putMessageEmbeddings eng db sessionID (some []) = (some err, db)) ∧
      (putMessageEmbeddings eng db sessionID none).2.message_embedding
        = db.message_embedding ∧
      (putMessageEmbeddings eng db sessionID (some [])).2.message_embedding
        = db.message_embedding ∧
      (putMessageEmbeddings eng db sessionID none).2.log = db.log ∧
      (putMessageEmbeddings eng db sessionID (some [])).2.log = db.log := by
  refine ⟨⟨NewStorageError "nil embeddings received" none, ?_⟩,
    ⟨NewStorageError "no embeddings received" none, ?_⟩, ?_, ?_, ?_, ?_⟩ <;>
    simp [putMessageEmbeddings, Slice.len]

/-! ## The insert and the failure paths -/

/-- C5: for every session identifier and every non-empty batch of n entries,
`putMessageEmbeddings` issues exactly one insert, of n rows in batch order, where
row i carries the session identifier, the `TextUUID` of entry i as message
reference, the vector of entry i component for component and "is embedded" set;
when the engine carries the insert out, the function returns no error and these
rows are appended to the table. -/
theorem putMessageEmbeddings_inserts_batch (eng : Engine) (db : DB) (sessionID : String)
    (batch : List TextData) (hne : batch ≠ []) :
    ∃ rows : List MessageVectorStoreSchema,
      (putMessageEmbeddings eng db sessionID (some batch)).2.log
        = db.log ++ [Stmt.insertMessageEmbeddings rows] ∧
      rows.length = batch.length ∧
      (∀ (i : Nat) (hb : i < batch.length) (hr : i < rows.length),
        rows[i].SessionID = sessionID ∧
        rows[i].MessageUUID = batch[i].TextUUID ∧
        rows[i].Embedding.Slice = batch[i].Embedding ∧
        rows[i].IsEmbedded = true) ∧
      (eng.fault db (Stmt.insertMessageEmbeddings rows) = none →
        (putMessageEmbeddings eng db sessionID (some batch)).1 = none ∧
        (putMessageEmbeddings eng db sessionID (some batch)).2.message_embedding
          = db.message_embedding ++ rows) := by
  refine ⟨batch.map fun e => ⟨sessionID, NewVector e.Embedding, e.TextUUID, true⟩,
    ?_, by simp, ?_, ?_⟩
  · rw [putMessageEmbeddings_cons eng db sessionID batch hne]
    simp only [execInsertMessageEmbeddings]
    cases eng.fault db (Stmt.insertMessageEmbeddings
      (batch.map fun e => ⟨sessionID, NewVector e.Embedding, e.TextUUID, true⟩)) <;>
      simp [DB.issue]
  · intro i hb hr
    simp [NewVector, Vector.Slice]
  · intro hok
    rw [putMessageEmbeddings_cons eng db sessionID batch hne]
    simp [execInsertMessageEmbeddings, hok]

theorem putMessageEmbeddings_inserts_batch_witness :
    ([⟨7, "hello", [1, 2]⟩, ⟨8, "world", [3, 4]⟩] : List TextData) ≠ [] ∧
    ∃ rows : List MessageVectorStoreSchema,
      (putMessageEmbeddings Engine.healthy DB.empty "s"
          (some [⟨7, "hello", [1, 2]⟩, ⟨8, "world", [3, 4]⟩])).2.log
        = DB.empty.log ++ [Stmt.insertMessageEmbeddings rows] ∧
      rows.length = ([⟨7, "hello", [1, 2]⟩, ⟨8, "world", [3, 4]⟩] : List TextData).length ∧
      (∀ (i : Nat)
          (hb : i < ([⟨7, "hello", [1, 2]⟩, ⟨8, "world", [3, 4]⟩] : List TextData).length)
          (hr : i < rows.length),
        rows[i].SessionID = "s" ∧
        rows[i].MessageUUID
          = ([⟨7, "hello", [1, 2]⟩, ⟨8, "world", [3, 4]⟩] : List TextData)[i].TextUUID ∧
        rows[i].Embedding.Slice
          = ([⟨7, "hello", [1, 2]⟩, ⟨8, "world", [3, 4]⟩] : List TextData)[i].Embedding ∧
        rows[i].IsEmbedded = true) ∧
      (Engine.healthy.fault DB.empty (Stmt.insertMessageEmbeddings rows) = none →
        (putMessageEmbeddings Engine.healthy DB.empty "s"
          (some [⟨7, "hello", [1, 2]⟩, ⟨8, "world", [3, 4]⟩])).1 = none ∧
        (putMessageEmbeddings Engine.healthy DB.empty "s"
          (some [⟨7, "hello", [1, 2]⟩, ⟨8, "world", [3, 4]⟩])).2.message_embedding
          = DB.empty.message_embedding ++ rows) :=
  ⟨by decide, putMessageEmbeddings_inserts_batch Engine.healthy DB.empty "s"
    [⟨7, "hello", [1, 2]⟩, ⟨8, "world", [3, 4]⟩] (by decide)⟩

/-- C7: whenever the engine call fails with cause e, `getMessageEmbeddings` (for
a non-empty session identifier) returns a nil result and a `StorageError` with
the message "failed to get message vectors" and cause e, and
`putMessageEmbeddings` (for a non-empty batch) returns a `StorageError` with the
message "failed to insert message vectors" and cause e; in both the statement
log grows by exactly that one statement (the engine is called once) and no row
is stored. -/
theorem engine_failure_is_wrapped_once (eng : Engine) (db : DB) (sessionID : String)
    (batch : List TextData) (e : GoError) :
    (sessionID ≠ "" → eng.fault db (Stmt.selectMessageEmbeddings sessionID) = some e →
      getMessageEmbeddings eng db sessionID =
          ((none, some (GoError.storageError "failed to get message vectors" (some e))),
            { db with log := db.log ++ [Stmt.selectMessageEmbeddings sessionID] }) ∧
        (GoError.storageError "failed to get message vectors" (some e)).kind
          = ErrorKind.StorageError ∧
        (GoError.storageError "failed to get message vectors" (some e)).cause = some e) ∧
    (batch ≠ [] →
      eng.fault db (Stmt.insertMessageEmbeddings
        (batch.map fun t => ⟨sessionID, NewVector t.Embedding, t.TextUUID, true⟩)) = some e →
      putMessageEmbeddings eng db sessionID (some batch) =
          (some (GoError.storageError "failed to insert message vectors" (some e)),
            { db with log := db.log ++ [Stmt.insertMessageEmbeddings
                (batch.map fun t => ⟨sessionID, NewVector t.Embedding, t.TextUUID, true⟩)] }) ∧
        (GoError.storageError "failed to insert message vectors" (some e)).kind
          = ErrorKind.StorageError ∧
        (GoError.storageError "failed to insert message vectors" (some e)).cause = some e) := by
  refine ⟨?_, ?_⟩
  · intro hs hf
    refine ⟨?_, rfl, rfl⟩
    simp [getMessageEmbeddings, hs, execSelectMessageEmbeddings, hf, NewStorageError,
      DB.issue]
  · intro hne hf
    refine ⟨?_, rfl, rfl⟩
    rw [putMessageEmbeddings_cons eng db sessionID batch hne]
    simp [execInsertMessageEmbeddings, hf, NewStorageError, DB.issue]

theorem engine_failure_is_wrapped_once_witness :
    ("s" ≠ "" ∧
      (Engine.failing (.driver "connection refused")).fault DB.empty
        (Stmt.selectMessageEmbeddings "s") = some (.driver "connection refused") ∧
      getMessageEmbeddings (Engine.failing (.driver "connection refused")) DB.empty "s" =
        ((none, some (GoError.storageError "failed to get message vectors"
            (some (.driver "connection refused")))),
          { DB.empty with log := DB.empty.log ++ [Stmt.selectMessageEmbeddings "s"] })) ∧
    (([⟨7, "hello", [1, 2]⟩] : List TextData) ≠ [] ∧
      putMessageEmbeddings (Engine.failing (.driver "connection refused")) DB.empty "s"
          (some [⟨7, "hello", [1, 2]⟩]) =
        (some (GoError.storageError "failed to insert message vectors"
            (some (.driver "connection refused"))),
          { DB.empty with log := DB.empty.log ++ [Stmt.insertMessageEmbeddings
              (([⟨7, "hello", [1, 2]⟩] : List TextData).map
                fun t => ⟨"s", NewVector t.Embedding, t.TextUUID, true⟩)] })) :=
  ⟨⟨by decide, rfl,
      ((engine_failure_is_wrapped_once (Engine.failing (.driver "connection refused"))
        DB.empty "s" [⟨7, "hello", [1, 2]⟩] (.driver "connection refused")).1
        (by decide) rfl).1⟩,
    ⟨by decide,
      ((engine_failure_is_wrapped_once (Engine.failing (.driver "connection refused"))
        DB.empty "s" [⟨7, "hello", [1, 2]⟩] (.driver "connection refused")).2
        (by decide) rfl).1⟩⟩

/-! ## Retrieval -/

/-- What `getMessageEmbeddings` returns when the engine answers the query. -/
theorem getMessageEmbeddings_ok (eng : Engine) (db : DB) (sessionID : String)
    (hs : sessionID ≠ "") (hok : eng.fault db (Stmt.selectMessageEmbeddings sessionID) = none) :
    getMessageEmbeddings eng db sessionID =
      ((some (storedRecords db sessionID), none),
        db.issue (Stmt.selectMessageEmbeddings sessionID)) := by
  simp [getMessageEmbeddings, hs, execSelectMessageEmbeddings, hok, rangeAssign_replicate,
    storedRecords]

theorem mem_storedRecords {db : DB} {sessionID : String} {t : TextData} :
    t ∈ storedRecords db sessionID ↔
      ∃ v ∈ db.message_embedding, ∃ m ∈ db.message,
        v.MessageUUID = m.UUID ∧ v.SessionID = sessionID ∧ m.DeletedAt = none ∧
          t = ⟨v.MessageUUID, m.Content, v.Embedding.Slice⟩ := by
  simp only [storedRecords, joinMessageEmbeddings, List.mem_map, List.mem_flatMap,
    List.mem_filter, Bool.and_eq_true, decide_eq_true_eq]
  constructor
  · rintro ⟨r, ⟨v, hv, m, ⟨hm, ⟨hu, hsid⟩, hd⟩, rfl⟩, rfl⟩
    exact ⟨v, hv, m, hm, hu, hsid, hd, rfl⟩
  · rintro ⟨v, hv, m, hm, hu, hsid, hd, rfl⟩
    exact ⟨_, ⟨v, hv, m, ⟨hm, ⟨hu, hsid⟩, hd⟩, rfl⟩, rfl⟩

theorem mem_embeddedMessages {db : DB} {sessionID : String} {t : TextData} :
    t ∈ embeddedMessages db sessionID ↔
      ∃ m ∈ db.message, m.SessionID = sessionID ∧ m.DeletedAt = none ∧
        ∃ v, (db.message_embedding.find? fun v => decide (v.MessageUUID = m.UUID)) = some v ∧
          t = ⟨m.UUID, m.Content, v.Embedding.Slice⟩ := by
  simp only [embeddedMessages, List.mem_filterMap, List.mem_filter, Bool.and_eq_true,
    decide_eq_true_eq, Option.map_eq_some']
  constructor
  · rintro ⟨m, ⟨hm, hsid, hd⟩, v, hv, rfl⟩
    exact ⟨m, hm, hsid, hd, v, hv, rfl⟩
  · rintro ⟨m, hm, hsid, hd, v, hv, rfl⟩
    exact ⟨m, ⟨hm, hsid, hd⟩, v, hv, rfl⟩

/-- With unique message references, looking an embedding row up by its message
finds that row. -/
theorem find_embedding_of_mem {rows : List MessageVectorStoreSchema}
    (hn : (rows.map (·.MessageUUID)).Nodup) {v : MessageVectorStoreSchema} (hv : v ∈ rows) :
    (rows.find? fun w => decide (w.MessageUUID = v.MessageUUID)) = some v := by
  cases hf : rows.find? fun w => decide (w.MessageUUID = v.MessageUUID) with
  | none =>
    have := List.find?_eq_none.mp hf v hv
    simp at this
  | some w =>
    have hw : w ∈ rows := List.mem_of_find?_eq_some hf
    have hp : w.MessageUUID = v.MessageUUID := by simpa using List.find?_some hf
    rw [List.inj_on_of_nodup_map hn hw hv hp]

/-- The records of a session, embedding row by embedding row. -/
theorem storedRecords_eq (db : DB) (sessionID : String) :
    storedRecords db sessionID = db.message_embedding.flatMap fun v =>
      (db.message.filter fun m =>
        decide (v.MessageUUID = m.UUID) && decide (v.SessionID = sessionID) &&
          decide (m.DeletedAt = none)).map fun m =>
        (⟨v.MessageUUID, m.Content, v.Embedding.Slice⟩ : TextData) := by
  simp only [storedRecords, joinMessageEmbeddings, List.map_flatMap, List.map_map]
  rfl

theorem storedRecords_nodup (db : DB) (sessionID : String)
    (hu : (db.message.map (·.UUID)).Nodup)
    (he : (db.message_embedding.map (·.MessageUUID)).Nodup) :
    (storedRecords db sessionID).Nodup := by
  rw [storedRecords_eq, List.nodup_flatMap]
  constructor
  · intro v _
    refine List.Nodup.map_on ?_ ((List.Nodup.of_map _ hu).filter _)
    intro x hx y hy _
    simp only [List.mem_filter, Bool.and_eq_true, decide_eq_true_eq] at hx hy
    exact List.inj_on_of_nodup_map hu hx.1 hy.1 (hx.2.1.1.symm.trans hy.2.1.1)
  · have hp : List.Pairwise (fun a b : MessageVectorStoreSchema =>
        a.MessageUUID ≠ b.MessageUUID) db.message_embedding := List.pairwise_map.mp he
    refine hp.imp ?_
    intro a b hab t hta htb
    simp only [List.mem_map] at hta htb
    obtain ⟨_, _, rfl⟩ := hta
    obtain ⟨_, _, h⟩ := htb
    exact hab (congrArg TextData.TextUUID h).symm

theorem embeddedMessages_nodup (db : DB) (sessionID : String)
    (hu : (db.message.map (·.UUID)).Nodup) :
    (embeddedMessages db sessionID).Nodup := by
  have hp : List.Pairwise (fun a b : MessageStoreSchema => a.UUID ≠ b.UUID) db.message :=
    List.pairwise_map.mp hu
  refine List.Pairwise.filterMap _ ?_ (hp.filter _)
  intro a a' hne b hb b' hb'
  simp only [Option.mem_def, Option.map_eq_some'] at hb hb'
  obtain ⟨_, _, rfl⟩ := hb
  obtain ⟨_, _, rfl⟩ := hb'
  intro h
  exact hne (congrArg TextData.TextUUID h)

/-- C6 (as stated, refuted): message UUIDs are unique and the one message has
one embedding row, the message belongs to session "A", is not soft-deleted and
is embedded, yet `getMessageEmbeddings` for "A" succeeds with no record, because
the embedding row is tagged with session "B"; for "B" it returns the record of
that message of another session. -/
theorem getMessageEmbeddings_ignores_message_session :
    ((([⟨1, "A", "user", "hi", none⟩] : List MessageStoreSchema).map (·.UUID)).Nodup ∧
      (([⟨"B", ⟨[1, 2]⟩, 1, true⟩] : List MessageVectorStoreSchema).map
        (·.MessageUUID)).Nodup) ∧
    (getMessageEmbeddings Engine.healthy
        ⟨[⟨1, "A", "user", "hi", none⟩], [⟨"B", ⟨[1, 2]⟩, 1, true⟩], [], []⟩ "A").1
      = (some [], none) ∧
    embeddedMessages
        ⟨[⟨1, "A", "user", "hi", none⟩], [⟨"B", ⟨[1, 2]⟩, 1, true⟩], [], []⟩ "A"
      = [⟨1, "hi", [1, 2]⟩] ∧
    (getMessageEmbeddings Engine.healthy
        ⟨[⟨1, "A", "user", "hi", none⟩], [⟨"B", ⟨[1, 2]⟩, 1, true⟩], [], []⟩ "B").1
      = (some [⟨1, "hi", [1, 2]⟩], none) ∧
    embeddedMessages
        ⟨[⟨1, "A", "user", "hi", none⟩], [⟨"B", ⟨[1, 2]⟩, 1, true⟩], [], []⟩ "B" = [] := by
  refine ⟨⟨by decide, by decide⟩, ?_, ?_, ?_, ?_⟩ <;> rfl

/-- C6 (amended): for every non-empty session identifier and every database
state in which message UUIDs are unique, each message has at most one embedding
row and every embedding row carries the session of its message, a successful
`getMessageEmbeddings` returns, up to order, exactly one record per message of
that session that has an embedding row and is not soft-deleted, and none for
soft-deleted messages, unembedded messages or other sessions; each record has
the message's UUID as `TextUUID`, the message's content as `Text` and the stored
vector unchanged as `Embedding`. -/
theorem getMessageEmbeddings_returns_embedded_messages (eng : Engine) (db : DB)
    (sessionID : String) (hs : sessionID ≠ "")
    (hu : (db.message.map (·.UUID)).Nodup)
    (he : (db.message_embedding.map (·.MessageUUID)).Nodup)
    (hc : ∀ v ∈ db.message_embedding, ∀ m ∈ db.message,
      v.MessageUUID = m.UUID → v.SessionID = m.SessionID)
    (hok : eng.fault db (Stmt.selectMessageEmbeddings sessionID) = none) :
    ∃ records : List TextData,
      (getMessageEmbeddings eng db sessionID).1 = (some records, none) ∧
      records.Nodup ∧
      records.Perm (embeddedMessages db sessionID) := by
  refine ⟨storedRecords db sessionID, ?_, storedRecords_nodup db sessionID hu he, ?_⟩
  · rw [getMessageEmbeddings_ok eng db sessionID hs hok]
  · rw [List.perm_ext_iff_of_nodup (storedRecords_nodup db sessionID hu he)
      (embeddedMessages_nodup db sessionID hu)]
    intro t
    rw [mem_storedRecords, mem_embeddedMessages]
    constructor
    · rintro ⟨v, hv, m, hm, hvm, hsid, hd, rfl⟩
      refine ⟨m, hm, ?_, hd, v, ?_, ?_⟩
      · rw [← hc v hv m hm hvm, hsid]
      · rw [← hvm]
        exact find_embedding_of_mem he hv
      · rw [hvm]
    · rintro ⟨m, hm, hsid, hd, v, hf, rfl⟩
      have hv : v ∈ db.message_embedding := List.mem_of_find?_eq_some hf
      have hvm : v.MessageUUID = m.UUID := by simpa using List.find?_some hf
      exact ⟨v, hv, m, hm, hvm, (hc v hv m hm hvm).trans hsid, hd, by rw [hvm]⟩

/-! ## Store, then retrieve -/

/-- What `putMessageEmbeddings` does when it reports success on a non-empty
batch: the engine accepted the insert and the mapped rows were appended. -/
theorem putMessageEmbeddings_success (eng : Engine) (db db₁ : DB) (sessionID : String)
    (batch : List TextData) (hne : batch ≠ [])
    (hput : putMessageEmbeddings eng db sessionID (some batch) = (none, db₁)) :
    db₁.message = db.message ∧
      db₁.message_embedding = db.message_embedding ++
        batch.map fun e => ⟨sessionID, NewVector e.Embedding, e.TextUUID, true⟩ := by
  rw [putMessageEmbeddings_cons eng db sessionID batch hne] at hput
  simp only [execInsertMessageEmbeddings] at hput
  cases hf : eng.fault db (Stmt.insertMessageEmbeddings
      (batch.map fun e => ⟨sessionID, NewVector e.Embedding, e.TextUUID, true⟩)) with
  | some err => simp [hf] at hput
  | none =>
    simp only [hf, Prod.mk.injEq, true_and] at hput
    subst hput
    simp [DB.issue]

/-- Filtering a concatenation of keyed groups by key keeps the groups of that
key. -/
theorem filter_flatMap_key {α β κ : Type} [DecidableEq κ] (key : α → κ) (kb : β → κ)
    (g : α → List β) (hg : ∀ x, ∀ b ∈ g x, kb b = key x) (k : κ) (l : List α) :
    (l.flatMap g).filter (fun b => decide (kb b = k)) =
      (l.filter fun x => decide (key x = k)).flatMap g := by
  induction l with
  | nil => simp
  | cons x xs ih =>
    rw [List.flatMap_cons, List.filter_append, ih]
    by_cases hx : key x = k
    · have hall : (g x).filter (fun b => decide (kb b = k)) = g x := by
        rw [List.filter_eq_self]
        intro b hb
        simp [hg x b hb, hx]
      simp [hx, hall]
    · have hnone : (g x).filter (fun b => decide (kb b = k)) = [] := by
        rw [List.filter_eq_nil_iff]
        intro b hb
        simp [hg x b hb, hx]
      simp [hx, hnone]

/-- In a list with distinct keys, the entries with the key of a member are that
member alone. -/
theorem filter_key_of_nodup {α κ : Type} [DecidableEq κ] (key : α → κ) :
    ∀ (l : List α), (l.map key).Nodup → ∀ a ∈ l,
      (l.filter fun x => decide (key x = key a)) = [a] := by
  intro l
  induction l with
  | nil => intro _ a ha; simp at ha
  | cons x xs ih =>
    intro hn a ha
    rw [List.map_cons, List.nodup_cons] at hn
    rcases List.mem_cons.mp ha with rfl | hmem
    · have hnil : (xs.filter fun x => decide (key x = key a)) = [] := by
        rw [List.filter_eq_nil_iff]
        intro y hy
        simp only [decide_eq_true_eq]
        intro h
        exact hn.1 (h ▸ List.mem_map_of_mem key hy)
      simp [List.filter_cons, hnil]
    · have hx : key x ≠ key a := fun h => hn.1 (h ▸ List.mem_map_of_mem key hmem)
      simp [List.filter_cons, hx, ih hn.2 a hmem]

/-- A successful `getMessageEmbeddings` returned the records of the session. -/
theorem getMessageEmbeddings_some (eng : Engine) (db : DB) (sessionID : String)
    (records : List TextData) (hs : sessionID ≠ "")
    (hget : (getMessageEmbeddings eng db sessionID).1 = (some records, none)) :
    records = storedRecords db sessionID := by
  cases hf : eng.fault db (Stmt.selectMessageEmbeddings sessionID) with
  | some err =>
    simp [getMessageEmbeddings, hs, execSelectMessageEmbeddings, hf] at hget
  | none =>
    rw [getMessageEmbeddings_ok eng db sessionID hs hf] at hget
    simp only [Prod.mk.injEq, Option.some.injEq, and_true] at hget
    exact hget.symm

/-- The records of a session after rows were appended to `message_embedding`:
the earlier records followed by those of the new rows. -/
theorem storedRecords_append (db db₁ : DB) (sessionID : String)
    (rows : List MessageVectorStoreSchema) (hmsg : db₁.message = db.message)
    (hemb : db₁.message_embedding = db.message_embedding ++ rows) :
    storedRecords db₁ sessionID = storedRecords db sessionID ++ rows.flatMap fun v =>
      (db.message.filter fun m =>
        decide (v.MessageUUID = m.UUID) && decide (v.SessionID = sessionID) &&
          decide (m.DeletedAt = none)).map fun m =>
        (⟨v.MessageUUID, m.Content, v.Embedding.Slice⟩ : TextData) := by
  rw [storedRecords_eq, storedRecords_eq, hmsg, hemb, List.flatMap_append]

/-- The records the rows of a batch contribute, entry by entry. -/
theorem batch_records_eq (db : DB) (sessionID : String) (batch : List TextData) :
    ((batch.map fun e => (⟨sessionID, NewVector e.Embedding, e.TextUUID, true⟩ :
        MessageVectorStoreSchema)).flatMap fun v =>
      (db.message.filter fun m =>
        decide (v.MessageUUID = m.UUID) && decide (v.SessionID = sessionID) &&
          decide (m.DeletedAt = none)).map fun m =>
        (⟨v.MessageUUID, m.Content, v.Embedding.Slice⟩ : TextData)) =
    batch.flatMap fun e =>
      (db.message.filter fun m =>
        decide (m.DeletedAt = none) && decide (m.UUID = e.TextUUID)).map fun m =>
        (⟨e.TextUUID, m.Content, e.Embedding⟩ : TextData) := by
  rw [List.flatMap_map]
  congr 1
  funext e
  have hcond : (fun m : MessageStoreSchema =>
      decide (e.TextUUID = m.UUID) && decide (sessionID = sessionID) &&
        decide (m.DeletedAt = none)) =
      fun m => decide (m.DeletedAt = none) && decide (m.UUID = e.TextUUID) := by
    funext m
    have h : decide (e.TextUUID = m.UUID) = decide (m.UUID = e.TextUUID) :=
      decide_eq_decide.mpr eq_comm
    rw [h]
    simp [Bool.and_comm]
  show List.map _ (List.filter (fun m : MessageStoreSchema =>
      decide (e.TextUUID = m.UUID) && decide (sessionID = sessionID) &&
        decide (m.DeletedAt = none)) db.message) = _
  rw [hcond]
  rfl

/-- C10: for every non-empty session identifier and every non-empty batch whose
`TextUUID`s are pairwise distinct, each resolve to one existing message that is
not soft-deleted, and have no embedding row yet, a successful
`putMessageEmbeddings` followed by a successful `getMessageEmbeddings` of the
same session yields, for every batch entry, exactly one record with that
entry's `TextUUID`; its `Embedding` is the entry's vector and its `Text` is the
content of the referenced message, whatever `Text` the entry carried.  Every
record a retrieval before the put returned is returned after it, as often as
before. -/
theorem put_then_get_round_trip (eng : Engine) (db db₁ : DB) (sessionID : String)
    (batch after : List TextData)
    (hs : sessionID ≠ "") (hne : batch ≠ [])
    (hd : (batch.map (·.TextUUID)).Nodup)
    (hm : ∀ e ∈ batch, ∃ m,
      (db.message.filter fun x => decide (x.UUID = e.TextUUID)) = [m] ∧ m.DeletedAt = none)
    (hn : ∀ e ∈ batch, ∀ v ∈ db.message_embedding, v.MessageUUID ≠ e.TextUUID)
    (hput : putMessageEmbeddings eng db sessionID (some batch) = (none, db₁))
    (hget : (getMessageEmbeddings eng db₁ sessionID).1 = (some after, none)) :
    (∀ e ∈ batch, ∀ m ∈ db.message, m.UUID = e.TextUUID →
      (after.filter fun r => decide (r.TextUUID = e.TextUUID))
        = [⟨e.TextUUID, m.Content, e.Embedding⟩]) ∧
    (∀ (eng₀ : Engine) (before : List TextData),
      (getMessageEmbeddings eng₀ db sessionID).1 = (some before, none) →
      ∀ r ∈ before, r ∈ after ∧ after.count r = before.count r) := by
  obtain ⟨hmsg, hemb⟩ := putMessageEmbeddings_success eng db db₁ sessionID batch hne hput
  have hafter : after = storedRecords db sessionID ++ batch.flatMap fun e =>
      (db.message.filter fun m =>
        decide (m.DeletedAt = none) && decide (m.UUID = e.TextUUID)).map fun m =>
        (⟨e.TextUUID, m.Content, e.Embedding⟩ : TextData) := by
    rw [getMessageEmbeddings_some eng db₁ sessionID after hs hget,
      storedRecords_append db db₁ sessionID _ hmsg hemb, batch_records_eq]
  constructor
  · intro e he m hmem hmu
    obtain ⟨m₀, hm₀, hdel⟩ := hm e he
    have hmm : m = m₀ := by
      have : m ∈ db.message.filter fun x => decide (x.UUID = e.TextUUID) := by
        simp [List.mem_filter, hmem, hmu]
      rw [hm₀] at this
      simpa using this
    subst hmm
    have hold : (storedRecords db sessionID).filter
        (fun r => decide (r.TextUUID = e.TextUUID)) = [] := by
      rw [List.filter_eq_nil_iff]
      intro r hr
      obtain ⟨v, hv, _, _, _, _, _, rfl⟩ := mem_storedRecords.mp hr
      simpa using hn e he v hv
    have hnew := filter_flatMap_key (fun e : TextData => e.TextUUID)
      (fun r : TextData => r.TextUUID)
      (fun e => (db.message.filter fun m =>
        decide (m.DeletedAt = none) && decide (m.UUID = e.TextUUID)).map fun m =>
        (⟨e.TextUUID, m.Content, e.Embedding⟩ : TextData))
      (by
        intro x b hb
        simp only [List.mem_map] at hb
        obtain ⟨_, _, rfl⟩ := hb
        rfl)
      e.TextUUID batch
    rw [hafter, List.filter_append, hold, hnew,
      filter_key_of_nodup (fun e : TextData => e.TextUUID) batch hd e he,
      List.nil_append, List.flatMap_singleton, ← List.filter_filter, hm₀]
    simp [hdel]
  · intro eng₀ before hbefore r hr
    have hb : before = storedRecords db sessionID :=
      getMessageEmbeddings_some eng₀ db sessionID before hs hbefore
    have hnot : r ∉ batch.flatMap fun e =>
        (db.message.filter fun m =>
          decide (m.DeletedAt = none) && decide (m.UUID = e.TextUUID)).map fun m =>
          (⟨e.TextUUID, m.Content, e.Embedding⟩ : TextData) := by
      intro hmem
      rw [List.mem_flatMap] at hmem
      obtain ⟨e, he, hre⟩ := hmem
      simp only [List.mem_map] at hre
      obtain ⟨_, _, rfl⟩ := hre
      rw [hb] at hr
      obtain ⟨v, hv, _, _, _, _, _, hrv⟩ := mem_storedRecords.mp hr
      exact hn e he v hv (congrArg TextData.TextUUID hrv).symm
    refine ⟨?_, ?_⟩
    · rw [hafter, ← hb]
      exact List.mem_append_left _ hr
    · rw [hafter, ← hb, List.count_append, List.count_eq_zero_of_not_mem hnot,
        Nat.add_zero]

/-! ## Pagination of summaries -/

/-- Consecutive windows of width `s` over a list add up to a prefix of it. -/
theorem flatMap_windows {α : Type} (l : List α) (s : Nat) :
    ∀ k : Nat, ((List.range k).flatMap fun q => (l.drop (q * s)).take s) = l.take (k * s) := by
  intro k
  induction k with
  | zero => simp
  | succ k ih =>
    rw [List.range_succ, List.flatMap_append, ih, List.flatMap_singleton, Nat.succ_mul,
      List.take_add]

/-- What `getSummaryList` returns when the engine answers the query. -/
theorem getSummaryList_ok (eng : Engine) (db : DB) (sessionID : String) (p s : Nat)
    (hs : sessionID ≠ "")
    (hok : eng.fault db (Stmt.selectSummaryList sessionID s ((p - 1) * s)) = none) :
    (getSummaryList eng db sessionID p s).1 =
      (some ⟨(summaryPage db sessionID p s).map SummaryStoreSchema.toSummary,
        (activeSummaries db sessionID).length⟩, none) := by
  simp [getSummaryList, hs, hok]

theorem summaryOrdering_length (db : DB) (sessionID : String) :
    (summaryOrdering db sessionID).length = (activeSummaries db sessionID).length :=
  (List.perm_insertionSort _ _).length_eq

/-- With unique summary UUIDs the ordering of a session lists no summary
twice. -/
theorem summaryOrdering_nodup (db : DB) (sessionID : String)
    (hu : ((activeSummaries db sessionID).map (·.UUID)).Nodup) :
    ((summaryOrdering db sessionID).map SummaryStoreSchema.toSummary).Nodup := by
  have hperm : ((summaryOrdering db sessionID).map (·.UUID)).Perm
      ((activeSummaries db sessionID).map (·.UUID)) := (List.perm_insertionSort _ _).map _
  have hnd : ((summaryOrdering db sessionID).map (·.UUID)).Nodup := hperm.nodup_iff.mpr hu
  have hcomp : (summaryOrdering db sessionID).map (·.UUID) =
      ((summaryOrdering db sessionID).map SummaryStoreSchema.toSummary).map (·.UUID) := by
    simp [List.map_map, Function.comp_def, SummaryStoreSchema.toSummary]
  rw [hcomp] at hnd
  exact List.Nodup.of_map _ hnd

/-- C9: for a session holding n non-deleted summaries and every page size
s ≥ 1, when the engine answers the queries, `getSummaryList` returns for every
page number p ≥ 1, without error, exactly min(s, n - (p-1)*s) summaries (the
subtraction stopping at 0) together with the count n; position i of page p is
position (p-1)*s + i of one fixed ordering, which is a rearrangement of the
session's non-deleted summaries; the pages 1, 2, ..., k laid end to end are that
ordering as soon as k*s ≥ n, so no summary is omitted, and with unique summary
UUIDs two different pages share no summary; for a session without rows every
page is empty, with count 0 and no error. -/
theorem getSummaryList_pagination (eng : Engine) (db : DB) (sessionID : String) (s : Nat)
    (hs : sessionID ≠ "") (hsz : 1 ≤ s)
    (hok : ∀ p, eng.fault db (Stmt.selectSummaryList sessionID s ((p - 1) * s)) = none) :
    ((summaryOrdering db sessionID).map SummaryStoreSchema.toSummary).Perm
        ((activeSummaries db sessionID).map SummaryStoreSchema.toSummary) ∧
    (∀ p, 1 ≤ p → ∃ page : List Summary,
      (getSummaryList eng db sessionID p s).1 =
        (some ⟨page, (activeSummaries db sessionID).length⟩, none) ∧
      page.length = min s ((activeSummaries db sessionID).length - (p - 1) * s) ∧
      ∀ i, i < s → page[i]? =
        ((summaryOrdering db sessionID).map SummaryStoreSchema.toSummary)[(p - 1) * s + i]?) ∧
    (∀ k, (activeSummaries db sessionID).length ≤ k * s →
      ((List.range k).flatMap fun q => listedSummaries eng db sessionID (q + 1) s) =
        (summaryOrdering db sessionID).map SummaryStoreSchema.toSummary) ∧
    (((activeSummaries db sessionID).map (·.UUID)).Nodup → ∀ p q, 1 ≤ p → 1 ≤ q → p ≠ q →
      List.Disjoint (listedSummaries eng db sessionID p s)
        (listedSummaries eng db sessionID q s)) ∧
    ((∀ r ∈ db.summary, r.SessionID ≠ sessionID) → ∀ p, 1 ≤ p →
      (getSummaryList eng db sessionID p s).1 = (some ⟨[], 0⟩, none)) := by
  have hpage : ∀ q, listedSummaries eng db sessionID (q + 1) s =
      (((summaryOrdering db sessionID).map SummaryStoreSchema.toSummary).drop (q * s)).take
        s := by
    intro q
    simp only [listedSummaries, getSummaryList_ok eng db sessionID (q + 1) s hs (hok (q + 1)),
      summaryPage, Nat.add_sub_cancel, List.map_take, List.map_drop]
  have hcover : ∀ k, (activeSummaries db sessionID).length ≤ k * s →
      ((List.range k).flatMap fun q => listedSummaries eng db sessionID (q + 1) s) =
        (summaryOrdering db sessionID).map SummaryStoreSchema.toSummary := by
    intro k hk
    simp only [hpage]
    rw [flatMap_windows, List.take_of_length_le]
    simpa [summaryOrdering_length] using hk
  refine ⟨(List.perm_insertionSort _ _).map _, ?_, hcover, ?_, ?_⟩
  · intro p _
    refine ⟨(summaryPage db sessionID p s).map SummaryStoreSchema.toSummary,
      getSummaryList_ok eng db sessionID p s hs (hok p), ?_, ?_⟩
    · simp [summaryPage, List.length_take, List.length_drop, summaryOrdering_length]
    · intro i hi
      simp [summaryPage, List.getElem?_take, List.getElem?_drop, hi]
  · intro hu p q hp hq hpq
    obtain ⟨a, rfl⟩ : ∃ a, p = a + 1 := ⟨p - 1, by omega⟩
    obtain ⟨b, rfl⟩ : ∃ b, q = b + 1 := ⟨q - 1, by omega⟩
    have hk : (activeSummaries db sessionID).length ≤
        ((activeSummaries db sessionID).length + a + b + 1) * s :=
      le_trans (by omega) (Nat.le_mul_of_pos_right _ hsz)
    have hnd := summaryOrdering_nodup db sessionID hu
    rw [← hcover _ hk, List.nodup_flatMap] at hnd
    have hsymm : Symmetric (List.Disjoint on fun q =>
        listedSummaries eng db sessionID (q + 1) s) := fun _ _ h => h.symm
    exact hnd.2.forall hsymm (List.mem_range.mpr (by omega)) (List.mem_range.mpr (by omega))
      (by omega)
  · intro hnone p _
    have hact : activeSummaries db sessionID = [] := by
      rw [activeSummaries, List.filter_eq_nil_iff]
      intro r hr
      simp [hnone r hr]
    rw [getSummaryList_ok eng db sessionID p s hs (hok p)]
    simp [summaryPage, summaryOrdering, hact]

/-! ## The current summary -/

/-- No stored summary is stamped later than the latest stamp. -/
theorem le_latestCreatedAt (db : DB) :
    ∀ r ∈ db.summary, r.CreatedAt ≤ db.latestCreatedAt := by
  unfold DB.latestCreatedAt
  induction db.summary with
  | nil => intro r hr; simp at hr
  | cons x xs ih =>
    intro r hr
    rw [List.foldr_cons]
    rcases List.mem_cons.mp hr with rfl | hmem
    · exact le_max_left _ _
    · exact le_trans (ih r hmem) (le_max_right _ _)

/-- A successful `putSummary` had a non-empty session identifier, returned the
view of the row it built and appended that row. -/
theorem putSummary_success (eng : Engine) (db db₁ : DB) (sessionID : String)
    (c r : Summary) (h : putSummary eng db sessionID c = ((some r, none), db₁)) :
    sessionID ≠ "" ∧ r = (summaryRow eng db sessionID c).toSummary ∧
      db₁.summary = db.summary ++ [summaryRow eng db sessionID c] := by
  by_cases hs : sessionID = ""
  · simp [putSummary, hs] at h
  · simp only [putSummary, hs, if_false] at h
    cases hf : eng.fault db (Stmt.insertSummary sessionID c) with
    | some err => simp [hf] at h
    | none =>
      simp only [hf, Prod.mk.injEq, Option.some.injEq, and_true] at h
      obtain ⟨hr, hdb⟩ := h
      refine ⟨hs, hr.symm, ?_⟩
      rw [← hdb]

/-- A successful sequence of calls ending in `last` is a successful sequence of
the earlier calls followed by a successful call for `last`, whose result comes
last. -/
theorem putSummaries_snoc (eng : Engine) (sessionID : String) (last : Summary) :
    ∀ (cs : List Summary) (db db₁ : DB) (results : List Summary),
      putSummaries eng sessionID db (cs ++ [last]) = some (db₁, results) →
      ∃ (db₀ : DB) (rs : List Summary) (r : Summary),
        putSummaries eng sessionID db cs = some (db₀, rs) ∧
        putSummary eng db₀ sessionID last = ((some r, none), db₁) ∧
        results = rs ++ [r] := by
  intro cs
  induction cs with
  | nil =>
    intro db db₁ results h
    simp only [List.nil_append, putSummaries] at h
    split at h
    · rename_i r db' heq
      simp only [Option.some.injEq, Prod.mk.injEq] at h
      obtain ⟨hdb, hres⟩ := h
      subst hdb
      exact ⟨db, [], r, rfl, heq, by simp [← hres]⟩
    · simp at h
  | cons c cs ih =>
    intro db db₁ results h
    simp only [List.cons_append, putSummaries] at h
    split at h
    · rename_i r₀ db' heq
      split at h
      · rename_i db'' rs hrest
        simp only [Option.some.injEq, Prod.mk.injEq] at h
        obtain ⟨hdb, hres⟩ := h
        subst hdb
        obtain ⟨db₀, rs₀, r, hcs, hlast, hrs⟩ := ih db' db'' rs hrest
        refine ⟨db₀, r₀ :: rs₀, r, ?_, hlast, ?_⟩
        · simp only [putSummaries, heq, hcs]
        · simp [← hres, hrs]
      · simp at h
    · simp at h

/-- The selection of the current summary returns one of the candidates. -/
theorem foldl_laterOf_mem (xs : List SummaryStoreSchema) :
    ∀ (init : Option SummaryStoreSchema) (b : SummaryStoreSchema),
      xs.foldl laterOf init = some b → b ∈ xs ∨ init = some b := by
  induction xs with
  | nil => intro init b h; exact Or.inr h
  | cons x xs ih =>
    intro init b h
    rw [List.foldl_cons] at h
    rcases ih _ b h with hmem | hinit
    · exact Or.inl (List.mem_cons_of_mem _ hmem)
    · cases init with
      | none =>
        simp only [laterOf, Option.some.injEq] at hinit
        exact Or.inl (hinit ▸ List.mem_cons_self _ _)
      | some a =>
        simp only [laterOf] at hinit
        split at hinit
        · simp only [Option.some.injEq] at hinit
          exact Or.inl (hinit ▸ List.mem_cons_self _ _)
        · exact Or.inr hinit

/-- A candidate appended last, with a creation timestamp no earlier than any
other, is the one selected. -/
theorem foldl_laterOf_append_last (xs : List SummaryStoreSchema) (r : SummaryStoreSchema)
    (h : ∀ x ∈ xs, x.CreatedAt ≤ r.CreatedAt) :
    (xs ++ [r]).foldl laterOf none = some r := by
  rw [List.foldl_append, List.foldl_cons, List.foldl_nil]
  cases hb : xs.foldl laterOf none with
  | none => rfl
  | some b =>
    rcases foldl_laterOf_mem xs none b hb with hmem | hnone
    · simp [laterOf, h b hmem]
    · simp at hnone

/-- Right after a successful `putSummary`, the row it inserted is the current
summary of the session. -/
theorem currentSummary_after_put (eng : Engine) (db db₁ : DB) (sessionID : String)
    (c r : Summary) (h : putSummary eng db sessionID c = ((some r, none), db₁)) :
    currentSummary db₁ sessionID = some (summaryRow eng db sessionID c) := by
  obtain ⟨_, _, hdb⟩ := putSummary_success eng db db₁ sessionID c r h
  have hact : activeSummaries db₁ sessionID =
      activeSummaries db sessionID ++ [summaryRow eng db sessionID c] := by
    simp [activeSummaries, hdb, List.filter_append, summaryRow]
  rw [currentSummary, hact]
  apply foldl_laterOf_append_last
  intro x hx
  have hmem : x ∈ db.summary := (List.mem_filter.mp hx).1
  have hle := le_latestCreatedAt db x hmem
  show x.CreatedAt ≤ db.latestCreatedAt + 1 + eng.elapsed db _
  exact le_trans hle (by rw [Nat.add_assoc]; exact Nat.le_add_right _ _)

/-- C8: for every session and every sequence of successful `putSummary` calls on
it, none soft-deleted, a successful `getSummary` returns the summary the last
call returned: same UUID, the content and metadata handed to that call, and a
creation timestamp that is not Go's zero time; for a session with no summaries,
a nonexistent session included, `getSummary` returns a nil result and no
error. -/
theorem getSummary_returns_last_put :
    (∀ (eng : Engine) (db db₁ : DB) (sessionID : String) (earlier : List Summary)
        (last : Summary) (results : List Summary),
      putSummaries eng sessionID db (earlier ++ [last]) = some (db₁, results) →
      eng.fault db₁ (Stmt.selectSummary sessionID) = none →
      ∃ r : Summary, results.getLast? = some r ∧
        results.length = earlier.length + 1 ∧
        (getSummary eng db₁ sessionID).1 = (some r, none) ∧
        r.Content = last.Content ∧ r.Metadata = last.Metadata ∧ r.CreatedAt ≠ 0) ∧
    (∀ (eng : Engine) (db : DB) (sessionID : String),
      sessionID ≠ "" → eng.fault db (Stmt.selectSummary sessionID) = none →
      activeSummaries db sessionID = [] →
      (getSummary eng db sessionID).1 = (none, none)) := by
  constructor
  · intro eng db db₁ sessionID earlier last results hput hok
    obtain ⟨db₀, rs, r, hearlier, hlast, hres⟩ :=
      putSummaries_snoc eng sessionID last earlier db db₁ results hput
    obtain ⟨hs, hr, _⟩ := putSummary_success eng db₀ db₁ sessionID last r hlast
    have hcur := currentSummary_after_put eng db₀ db₁ sessionID last r hlast
    have hlen : rs.length = earlier.length := by
      clear hput hres hlast hcur hr
      induction earlier generalizing db rs with
      | nil =>
        simp only [putSummaries, Option.some.injEq, Prod.mk.injEq] at hearlier
        simp [← hearlier.2]
      | cons c cs ih =>
        simp only [putSummaries] at hearlier
        split at hearlier
        · split at hearlier
          · rename_i db'' rs' hrest
            simp only [Option.some.injEq, Prod.mk.injEq] at hearlier
            rw [← hearlier.2, List.length_cons, List.length_cons,
              ih _ rs' (hearlier.1 ▸ hrest)]
          · simp at hearlier
        · simp at hearlier
    refine ⟨r, by simp [hres], by simp [hres, hlen], ?_, ?_, ?_, ?_⟩
    · simp [getSummary, hs, hok, hcur, hr]
    · simp [hr, summaryRow, SummaryStoreSchema.toSummary]
    · simp [hr, summaryRow, SummaryStoreSchema.toSummary]
    · simp [hr, summaryRow, SummaryStoreSchema.toSummary, serverNow]
  · intro eng db sessionID hs hok hnone
    simp [getSummary, hs, hok, currentSummary, hnone]

/-! ## Instances -/

theorem getMessageEmbeddings_returns_embedded_messages_witness :
    "s" ≠ "" ∧ (DB.sample.message.map (·.UUID)).Nodup ∧
    (DB.sample.message_embedding.map (·.MessageUUID)).Nodup ∧
    ∃ records : List TextData,
      (getMessageEmbeddings Engine.healthy DB.sample "s").1 = (some records, none) ∧
      records.Nodup ∧
      records.Perm (embeddedMessages DB.sample "s") :=
  ⟨by decide, by decide, by decide,
    getMessageEmbeddings_returns_embedded_messages Engine.healthy DB.sample "s"
      (by decide) (by decide) (by decide) (by decide) rfl⟩

theorem put_then_get_round_trip_witness :
    putMessageEmbeddings Engine.healthy DB.sample "s" (some sampleBatch) =
      (none, (putMessageEmbeddings Engine.healthy DB.sample "s" (some sampleBatch)).2) ∧
    (∀ e ∈ sampleBatch, ∀ m ∈ DB.sample.message, m.UUID = e.TextUUID →
      (([⟨2, "Hi there!", [9, 9]⟩, ⟨1, "Hello", [1, 2]⟩] : List TextData).filter
          fun r => decide (r.TextUUID = e.TextUUID))
        = [⟨e.TextUUID, m.Content, e.Embedding⟩]) ∧
    (∀ (eng₀ : Engine) (before : List TextData),
      (getMessageEmbeddings eng₀ DB.sample "s").1 = (some before, none) →
      ∀ r ∈ before, r ∈ ([⟨2, "Hi there!", [9, 9]⟩, ⟨1, "Hello", [1, 2]⟩] : List TextData) ∧
        ([⟨2, "Hi there!", [9, 9]⟩, ⟨1, "Hello", [1, 2]⟩] : List TextData).count r
          = before.count r) :=
  ⟨rfl,
    put_then_get_round_trip Engine.healthy DB.sample
      (putMessageEmbeddings Engine.healthy DB.sample "s" (some sampleBatch)).2 "s" sampleBatch
      [⟨2, "Hi there!", [9, 9]⟩, ⟨1, "Hello", [1, 2]⟩]
      (by decide) (by decide) (by decide)
      (by
        intro e he
        simp only [sampleBatch, List.mem_singleton] at he
        subst he
        exact ⟨⟨1, "s", "user", "Hello", none⟩, rfl, rfl⟩)
      (by decide) rfl rfl⟩

theorem getSummary_returns_last_put_witness :
    putSummaries Engine.healthy "s" DB.empty sampleCalls =
      some (DB.twoSummaries,
        [⟨10, 1, "Test content", [("key", "value")], 1⟩,
          ⟨11, 2, "Test content 2", [("key", "value")], 2⟩]) ∧
    (∃ r : Summary,
      ([⟨10, 1, "Test content", [("key", "value")], 1⟩,
          ⟨11, 2, "Test content 2", [("key", "value")], 2⟩] : List Summary).getLast?
        = some r ∧
      ([⟨10, 1, "Test content", [("key", "value")], 1⟩,
          ⟨11, 2, "Test content 2", [("key", "value")], 2⟩] : List Summary).length
        = ([⟨0, 0, "Test content", [("key", "value")], 1⟩] : List Summary).length + 1 ∧
      (getSummary Engine.healthy DB.twoSummaries "s").1 = (some r, none) ∧
      r.Content = "Test content 2" ∧ r.Metadata = [("key", "value")] ∧ r.CreatedAt ≠ 0) ∧
    (getSummary Engine.healthy DB.twoSummaries "nonexistent").1 = (none, none) :=
  ⟨rfl,
    getSummary_returns_last_put.1 Engine.healthy DB.empty DB.twoSummaries "s"
      [⟨0, 0, "Test content", [("key", "value")], 1⟩]
      ⟨0, 0, "Test content 2", [("key", "value")], 2⟩
      [⟨10, 1, "Test content", [("key", "value")], 1⟩,
        ⟨11, 2, "Test content 2", [("key", "value")], 2⟩] rfl rfl,
    getSummary_returns_last_put.2 Engine.healthy DB.twoSummaries "nonexistent"
      (by decide) rfl rfl⟩

theorem getSummaryList_pagination_witness :
    "s" ≠ "" ∧ 1 ≤ 5 ∧
    (∀ p, 1 ≤ p → ∃ page : List Summary,
      (getSummaryList Engine.healthy DB.nineSummaries "s" p 5).1 =
        (some ⟨page, (activeSummaries DB.nineSummaries "s").length⟩, none) ∧
      page.length = min 5 ((activeSummaries DB.nineSummaries "s").length - (p - 1) * 5) ∧
      ∀ i, i < 5 → page[i]? =
        ((summaryOrdering DB.nineSummaries "s").map
          SummaryStoreSchema.toSummary)[(p - 1) * 5 + i]?) ∧
    (activeSummaries DB.nineSummaries "s").length = 9 ∧
    (listedSummaries Engine.healthy DB.nineSummaries "s" 1 5).length = 5 ∧
    (listedSummaries Engine.healthy DB.nineSummaries "s" 2 5).length = 4 :=
  ⟨by decide, by decide,
    (getSummaryList_pagination Engine.healthy DB.nineSummaries "s" 5 (by decide) (by decide)
      (fun _ => rfl)).2.1,
    by decide, by decide, by decide⟩

end Zep
